import Mathlib

/-
Verification development for the saytype push-to-talk dictation core.

Shallow embedding of the Rust sources under src/src-tauri/src/:
  hotkey.rs   — hotkey activation state machine (handle_event, clear_held_keys)
  audio.rs    — resampling (resample_audio), WAV encoding (write_wav_file),
                recorder stop path (PushToTalkRecorder::stop)
  sidecar.rs  — sidecar startup handshake (start) and transcribe response
                handling (transcribe)
  config.rs   — is_modifier_keycode

Modelling conventions:
  - i64 keycodes become ℤ; the held-key HashSet becomes Finset ℤ.
  - f32 / f64 sample and rate arithmetic is modelled over ℚ / ℕ; a Rust
    `as usize` cast of a nonnegative f64 is modelled as ℕ floor division,
    and `as i16` of an in-range f32 as truncation toward zero.
  - The rubato FftFixedInOut resampler is a third-party stateful block
    processor; it is modelled abstractly as a state `σ` with a step
    function consuming one fixed-size input chunk and emitting one output
    chunk.  Its library contract (fixed input size I, fixed output size O
    with S * O = I * T) appears as hypotheses where a theorem needs it.
  - The filesystem is modelled as an association list from paths to byte
    sizes; hound's 16-bit mono WAV output is 44 header bytes plus
    2 bytes per sample.
-/

namespace Saytype

/-! ## Hotkey state machine (hotkey.rs, config.rs) -/

/-- The subset of CGEventFlags bits inspected by `is_modifier_pressed`
in hotkey.rs (command, shift, alternate, control, alphaShift, secondaryFn). -/
structure CGEventFlags where
  command : Bool
  shift : Bool
  alternate : Bool
  control : Bool
  alphaShift : Bool
  secondaryFn : Bool
deriving DecidableEq, Repr

/-- The three event types the tap registers for (hotkey.rs setup_event_tap). -/
inductive CGEventType where
  | keyDown
  | keyUp
  | flagsChanged
deriving DecidableEq, Repr

/-- One keyboard event as seen by `handle_event`: its type, the keycode
field, and the modifier flag bits. -/
structure KeyEvent where
  type : CGEventType
  keycode : ℤ
  flags : CGEventFlags
deriving DecidableEq, Repr

/-- config.rs `is_modifier_keycode`: keycodes 54,55,56,60,58,61,59,62,57,63. -/
def is_modifier_keycode (keycode : ℤ) : Bool :=
  keycode == 54 || keycode == 55 || keycode == 56 || keycode == 60 ||
  keycode == 58 || keycode == 61 || keycode == 59 || keycode == 62 ||
  keycode == 57 || keycode == 63

/-- hotkey.rs `is_modifier_pressed`: whether the modifier keycode's flag
bit is set on the event. -/
def is_modifier_pressed (keycode : ℤ) (flags : CGEventFlags) : Bool :=
  if keycode == 54 || keycode == 55 then flags.command
  else if keycode == 56 || keycode == 60 then flags.shift
  else if keycode == 58 || keycode == 61 then flags.alternate
  else if keycode == 59 || keycode == 62 then flags.control
  else if keycode == 57 then flags.alphaShift
  else if keycode == 63 then flags.secondaryFn
  else false

/-- hotkey.rs `update_held_key`: insert on press, remove on release. -/
def update_held_key (keycode : ℤ) (pressed : Bool) (held : Finset ℤ) : Finset ℤ :=
  if pressed then insert keycode held else held.erase keycode

/-- The held-key update performed by the match in `handle_event`:
FlagsChanged uses the flag bit, KeyDown/KeyUp only act on non-modifier
keycodes. -/
def applyKeyEvent (ev : KeyEvent) (held : Finset ℤ) : Finset ℤ :=
  match ev.type with
  | CGEventType.flagsChanged =>
      update_held_key ev.keycode (is_modifier_pressed ev.keycode ev.flags) held
  | CGEventType.keyDown =>
      if !(is_modifier_keycode ev.keycode) then update_held_key ev.keycode true held else held
  | CGEventType.keyUp =>
      if !(is_modifier_keycode ev.keycode) then update_held_key ev.keycode false held else held

/-- hotkey.rs: `required_keycodes.iter().all(|kc| held.contains(kc))`. -/
def allRequiredHeld (required : List ℤ) (held : Finset ℤ) : Bool :=
  required.all (fun kc => decide (kc ∈ held))

/-- The mutable globals of hotkey.rs: HELD_KEYS and HOTKEY_ACTIVE. -/
structure HotkeyState where
  held : Finset ℤ
  hotkey_active : Bool
deriving DecidableEq

/-- hotkey.rs `handle_event`: update the held set, recompute
`all_held`, and fire the pressed (resp. released) notification exactly on
the rising (resp. falling) edge of `all_held` against the stored active
flag.  Returns the new state, the pressed flag, the released flag. -/
def handle_event (required : List ℤ) (s : HotkeyState) (ev : KeyEvent) :
    HotkeyState × Bool × Bool :=
  let held' := applyKeyEvent ev s.held
  let all_held := allRequiredHeld required held'
  if all_held && !s.hotkey_active then
    (⟨held', true⟩, true, false)
  else if !all_held && s.hotkey_active then
    (⟨held', false⟩, false, true)
  else
    (⟨held', s.hotkey_active⟩, false, false)

/-- Run `handle_event` over a sequence of events, collecting the pressed
and released notification flags fired at each event. -/
def hotkeyRun (required : List ℤ) (s : HotkeyState) :
    List KeyEvent → HotkeyState × List Bool × List Bool
  | [] => (s, [], [])
  | ev :: evs =>
      let step := handle_event required s ev
      let rest := hotkeyRun required step.1 evs
      (rest.1, step.2.1 :: rest.2.1, step.2.2 :: rest.2.2)

/-- The trace of held-key sets after each event (the specification-side
view of the run, independent of the active flag). -/
def heldTrace (held : Finset ℤ) : List KeyEvent → List (Finset ℤ)
  | [] => []
  | ev :: evs =>
      let h := applyKeyEvent ev held
      h :: heldTrace h evs

/-- Rising edges of a boolean sequence relative to a starting value:
position k is true exactly when the condition is true at k and was false
just before. -/
def risingEdges (c0 : Bool) : List Bool → List Bool
  | [] => []
  | c :: cs => (c && !c0) :: risingEdges c cs

/-- Falling edges of a boolean sequence relative to a starting value. -/
def fallingEdges (c0 : Bool) : List Bool → List Bool
  | [] => []
  | c :: cs => (!c && c0) :: fallingEdges c cs

/-- hotkey.rs `clear_held_keys`: empty the held set and clear
HOTKEY_ACTIVE (called on every hotkey reconfiguration, lib.rs set_hotkey). -/
def clear_held_keys (_s : HotkeyState) : HotkeyState :=
  ⟨∅, false⟩

/-! ## Sidecar channel (sidecar.rs) -/

/-- One line read from the sidecar's stdout during startup, after serde
parsing: either the line failed to parse as a StatusResponse, or it parsed
with an optional status field. -/
inductive StatusLine where
  | malformed
  | status (s : Option String)
deriving DecidableEq

/-- sidecar.rs `start`, restricted to the handshake on the stdout lines:
read the first line; on status "loading" read a second line that must be
status "ready"; a first line of status "ready" proceeds directly; anything
else is an error.  Returns the startup result together with the final
value of the shared `sidecar_ready` flag (set true only after success;
an empty line list models read failure/EOF, which serde then rejects). -/
def sidecar_start (lines : List StatusLine) : Except String Unit × Bool :=
  match lines with
  | [] => (Except.error "Failed to read from sidecar", false)
  | first :: rest =>
    match first with
    | StatusLine.malformed => (Except.error "Failed to parse status response", false)
    | StatusLine.status st =>
      if st = some "loading" then
        match rest with
        | [] => (Except.error "Failed to read ready signal from sidecar", false)
        | second :: _ =>
          match second with
          | StatusLine.malformed => (Except.error "Failed to parse ready response", false)
          | StatusLine.status st2 =>
            if st2 = some "ready" then (Except.ok (), true)
            else (Except.error "Expected ready status", false)
      else if st = some "ready" then (Except.ok (), true)
      else (Except.error "Unexpected sidecar response", false)

/-- sidecar.rs TranscribeResponse: the parsed response line. -/
structure TranscribeResponse where
  success : Bool
  text : Option String
  error : Option String
deriving DecidableEq

/-- sidecar.rs `transcribe`, response-handling tail: on success return the
text (or an error if the text field is absent), otherwise return the error
string (or a fallback). -/
def transcribe_result (r : TranscribeResponse) : Except String String :=
  if r.success then
    match r.text with
    | some t => Except.ok t
    | none => Except.error "No text in response"
  else
    Except.error (r.error.getD "Unknown error")

/-! ## WAV encoding (audio.rs write_wav_file) -/

/-- Rust `f32::clamp(self, lo, hi)` over ℚ. -/
def clampQ (x lo hi : ℚ) : ℚ := max lo (min x hi)

/-- Rust `as i16` on an in-range f32: truncation toward zero. -/
def truncQ (q : ℚ) : ℤ := if 0 ≤ q then ⌊q⌋ else ⌈q⌉

/-- audio.rs write_wav_file: `(sample.clamp(-1.0, 1.0) * i16::MAX as f32) as i16`. -/
def encode_i16 (x : ℚ) : ℤ := truncQ (clampQ x (-1) 1 * 32767)

/-- The repository's 16-bit-to-float normalization (audio.rs capture
callback: `sample as f32 / i16::MAX as f32`), used as the decoder. -/
def decode_i16 (v : ℤ) : ℚ := (v : ℚ) / 32767

/-! ## Resampling (audio.rs resample_audio)

The rubato `FftFixedInOut` resampler is modelled abstractly: a state type
`σ` and a step function that consumes one input chunk and yields the next
state and one output chunk.  `I` stands for `resampler.input_frames_next()`
(the fixed per-call input size queried by the code). -/

/-- The `while pos + input_frames_per_chunk <= samples.len()` loop of
resample_audio, written with explicit fuel so that it is structurally
recursive (each iteration consumes I ≥ 1 samples, so fuel
`samples.length` is always enough; with I = 0 the Rust loop would not
terminate either).  Returns the final resampler state, the concatenated
output of the full chunks, and the unprocessed tail (shorter than I). -/
def resampleLoopFuel {σ : Type} (step : σ → List ℚ → σ × List ℚ) (I : ℕ) :
    ℕ → σ → List ℚ → σ × List ℚ × List ℚ
  | 0, st, samples => (st, [], samples)
  | fuel + 1, st, samples =>
      if 0 < I ∧ I ≤ samples.length then
        let pr := step st (samples.take I)
        let rest := resampleLoopFuel step I fuel pr.1 (samples.drop I)
        (rest.1, pr.2 ++ rest.2.1, rest.2.2)
      else
        (st, [], samples)

/-- The full-chunk processing loop of resample_audio. -/
def resampleLoop {σ : Type} (step : σ → List ℚ → σ × List ℚ) (I : ℕ)
    (st : σ) (samples : List ℚ) : σ × List ℚ × List ℚ :=
  resampleLoopFuel step I samples.length st samples

/-- audio.rs `resample_audio`: pass-through when the rates match;
otherwise process full chunks of size I, then zero-pad the remaining tail
to a full chunk, process it, and keep only
`(remaining * target_rate / source_rate) as usize` of its output, capped
at the produced length (`output_frames.min(resampled.len())`).  The f64
product/quotient followed by the `as usize` cast is modelled as ℕ floor
division. -/
def resample_audio {σ : Type} (step : σ → List ℚ → σ × List ℚ) (I : ℕ) (st : σ)
    (samples : List ℚ) (source_rate target_rate : ℕ) : List ℚ :=
  if source_rate = target_rate then samples
  else
    let r := resampleLoop step I st samples
    let output := r.2.1
    let rest := r.2.2
    if rest.length = 0 then output
    else
      let remaining := rest.length
      let padded := rest ++ List.replicate (I - remaining) (0 : ℚ)
      let resampled := (step r.1 padded).2
      let output_frames := remaining * target_rate / source_rate
      output ++ resampled.take (min output_frames resampled.length)

/-- Modelled from the spec's words (§4.4): `output_frames =
round(remaining_input_samples * target_rate / source_rate)` with round
meaning rounding to the nearest integer; written as
(2·a + b) / (2·b) which rounds a/b half-up. -/
def output_frames_spec (remaining target source : ℕ) : ℕ :=
  (2 * (remaining * target) + source) / (2 * source)

/-! ## Recorder stop path (audio.rs PushToTalkRecorder::stop) and the
hotkey-release cycle (hotkey.rs on_hotkey_released) -/

/-- The fields of PushToTalkRecorder that the stop path reads: whether a
stream is live, the accumulated sample buffer, the device sample rate and
the output artifact path. -/
structure RecorderState where
  hasStream : Bool
  samples : List ℚ
  sample_rate : ℕ
  output_path : String

/-- Filesystem model: an association list from paths to file byte sizes. -/
def FileSystem : Type := List (String × ℕ)

/-- Create or overwrite a file of the given size. -/
def fs_write (fs : FileSystem) (path : String) (size : ℕ) : FileSystem :=
  (path, size) :: fs.filter (fun e => !(e.1 == path))

/-- std::fs::remove_file. -/
def fs_remove (fs : FileSystem) (path : String) : FileSystem :=
  fs.filter (fun e => !(e.1 == path))

/-- std::path::Path::exists. -/
def fs_exists (fs : FileSystem) (path : String) : Bool :=
  fs.any (fun e => e.1 == path)

/-- std::fs::metadata(..).len(). -/
def fs_size (fs : FileSystem) (path : String) : Option ℕ :=
  (fs.find? (fun e => e.1 == path)).map (fun e => e.2)

/-- Byte size of the WAV file hound produces for 16-bit mono samples: a
44-byte canonical header (the threshold the code itself compares against)
plus two bytes per sample. -/
def wav_file_size (numSamples : ℕ) : ℕ := 44 + 2 * numSamples

/-- audio.rs `write_wav_file` as its filesystem effect. -/
def write_wav_file (fs : FileSystem) (path : String) (samples : List ℚ) : FileSystem :=
  fs_write fs path (wav_file_size samples.length)

/-- audio.rs TARGET_SAMPLE_RATE. -/
def TARGET_SAMPLE_RATE : ℕ := 16000

/-- audio.rs `PushToTalkRecorder::stop`: error when no stream is live,
error when the buffer is empty (before anything is written), otherwise
resample if the device rate differs from the target, write the WAV file
and then fail — leaving the file in place — if its size is at most the
44-byte header.  Returns the result and the filesystem afterwards. -/
def recorder_stop {σ : Type} (step : σ → List ℚ → σ × List ℚ) (I : ℕ) (rst : σ)
    (rec : RecorderState) (fs : FileSystem) : Except String String × FileSystem :=
  if rec.hasStream = false then
    (Except.error "No recording in progress", fs)
  else if rec.samples.length = 0 then
    (Except.error "No audio samples recorded", fs)
  else
    let resampled :=
      if rec.sample_rate ≠ TARGET_SAMPLE_RATE then
        resample_audio step I rst rec.samples rec.sample_rate TARGET_SAMPLE_RATE
      else
        rec.samples
    let fs1 := write_wav_file fs rec.output_path resampled
    if fs_exists fs1 rec.output_path = false then
      (Except.error "WAV file was not created", fs1)
    else
      match fs_size fs1 rec.output_path with
      | some sz =>
          if sz ≤ 44 then (Except.error "WAV file is empty or too small", fs1)
          else (Except.ok rec.output_path, fs1)
      | none => (Except.ok rec.output_path, fs1)

/-- Outcome of sidecar::transcribe as seen by on_hotkey_released. -/
inductive TranscribeOutcome where
  | ok (text : String)
  | err (msg : String)

/-- hotkey.rs `on_hotkey_released`, restricted to its filesystem effect on
the audio artifact: if stop_recording fails the task returns early (no
deletion); otherwise, after transcription — whether it succeeds, returns
empty text, or fails — `std::fs::remove_file(&audio_path)` runs. -/
def on_hotkey_released {σ : Type} (step : σ → List ℚ → σ × List ℚ) (I : ℕ) (rst : σ)
    (rec : RecorderState) (fs : FileSystem)
    (transcription : String → TranscribeOutcome) : FileSystem :=
  let r := recorder_stop step I rst rec fs
  match r.1 with
  | Except.error _ => r.2
  | Except.ok path =>
      match transcription path with
      | TranscribeOutcome.ok _text => fs_remove r.2 path
      | TranscribeOutcome.err _msg => fs_remove r.2 path

/-! ## Theorems -/

/-- C9: clearing the held-key set empties it and forces the activation
state to Idle (active flag false), regardless of the prior state. -/
theorem clear_held_keys_forces_idle (s : HotkeyState) :
    (clear_held_keys s).held = ∅ ∧ (clear_held_keys s).hotkey_active = false :=
  ⟨rfl, rfl⟩

/-- C6: transcribe's response handling returns the text on a successful
response with text "hello", and the error string on a failed response
with error "boom". -/
theorem transcribe_response_cases :
    transcribe_result ⟨true, some "hello", none⟩ = Except.ok "hello" ∧
    transcribe_result ⟨false, none, some "boom"⟩ = Except.error "boom" :=
  ⟨rfl, rfl⟩

/-- C8: stopping capture with a live stream but an empty sample buffer
returns the EmptyCapture error ("No audio samples recorded") and leaves
the filesystem untouched — no audio artifact is written. -/
theorem stop_empty_capture_no_artifact {σ : Type} (step : σ → List ℚ → σ × List ℚ)
    (I : ℕ) (rst : σ) (rate : ℕ) (path : String) (fs : FileSystem) :
    recorder_stop step I rst ⟨true, [], rate, path⟩ fs =
      (Except.error "No audio samples recorded", fs) :=
  rfl

/-- C5: sidecar startup succeeds exactly when the first parsed line has
status "ready", or the first has status "loading" and the second has
status "ready"; and the shared readiness flag ends up true exactly when
startup succeeded (it stays false on every error path). -/
theorem sidecar_start_ready_characterization (lines : List StatusLine) :
    (sidecar_start lines).2 = (sidecar_start lines).1.isOk ∧
    ((sidecar_start lines).1.isOk = true ↔
      (∃ rest, lines = StatusLine.status (some "ready") :: rest) ∨
      (∃ rest, lines = StatusLine.status (some "loading") ::
        StatusLine.status (some "ready") :: rest)) := by
  match lines with
  | [] => simp [sidecar_start, Except.isOk, Except.toBool]
  | StatusLine.malformed :: rest => simp [sidecar_start, Except.isOk, Except.toBool]
  | StatusLine.status st :: rest =>
    by_cases hl : st = some "loading"
    · subst hl
      match rest with
      | [] => simp [sidecar_start, Except.isOk, Except.toBool]
      | StatusLine.malformed :: rest2 => simp [sidecar_start, Except.isOk, Except.toBool]
      | StatusLine.status st2 :: rest2 =>
        by_cases hr : st2 = some "ready"
        · subst hr
          simp [sidecar_start, Except.isOk, Except.toBool]
        · simp [sidecar_start, Except.isOk, Except.toBool, hr]
    · by_cases hready : st = some "ready"
      · subst hready
        simp [sidecar_start, Except.isOk, Except.toBool]
      · simp [sidecar_start, Except.isOk, Except.toBool, hl, hready]

/-- C10: for every (rational-modelled) input sample, including values
below -1 such as -32768/32767 (the normalization of an i16::MIN capture
sample), the encoder's output lies in [-32767, 32767]: clamping happens
before quantization, so integer wraparound cannot occur. -/
theorem encode_sample_in_range :
    (∀ x : ℚ, -32767 ≤ encode_i16 x ∧ encode_i16 x ≤ 32767) ∧
    encode_i16 (-32768 / 32767) = -32767 := by
  constructor
  · intro x
    unfold encode_i16 truncQ
    have hlo : (-1 : ℚ) ≤ clampQ x (-1) 1 := le_max_left _ _
    have hhi : clampQ x (-1) 1 ≤ 1 := by
      unfold clampQ
      exact max_le (by norm_num) (min_le_right x 1)
    have hq1 : clampQ x (-1) 1 * 32767 ≤ 32767 := by nlinarith
    have hq2 : (-32767 : ℚ) ≤ clampQ x (-1) 1 * 32767 := by nlinarith
    by_cases hq : 0 ≤ clampQ x (-1) 1 * 32767
    · rw [if_pos hq]
      constructor
      · have h0 : (0 : ℤ) ≤ ⌊clampQ x (-1) 1 * 32767⌋ := Int.floor_nonneg.mpr hq
        omega
      · have := Int.floor_le (clampQ x (-1) 1 * 32767)
        have : (⌊clampQ x (-1) 1 * 32767⌋ : ℚ) ≤ 32767 := le_trans this hq1
        exact_mod_cast this
    · rw [if_neg hq]
      constructor
      · have := Int.le_ceil (clampQ x (-1) 1 * 32767)
        have : (-32767 : ℚ) ≤ (⌈clampQ x (-1) 1 * 32767⌉ : ℚ) := le_trans hq2 this
        exact_mod_cast this
      · have h0 : ⌈clampQ x (-1) 1 * 32767⌉ ≤ 0 :=
          Int.ceil_le.mpr (by exact_mod_cast le_of_not_le hq)
        omega
  · unfold encode_i16 clampQ truncQ
    have h1 : min (-32768 / 32767 : ℚ) 1 = -32768 / 32767 :=
      min_eq_left (by norm_num)
    have h2 : max (-1 : ℚ) (-32768 / 32767) = -1 := max_eq_left (by norm_num)
    rw [h1, h2, if_neg (by norm_num : ¬ (0 : ℚ) ≤ -1 * 32767)]
    have h3 : (-1 * 32767 : ℚ) = ((-32767 : ℤ) : ℚ) := by norm_num
    rw [h3, Int.ceil_intCast]

/-- C3 counterexample: at x = 99999/3276700000 (inside [-1, 1]) the
encoder truncates 0.99999 to 0, so the decoded value differs from x by
more than the claimed 1/32768 bound. -/
theorem encode_decode_error_exceeds_claimed_bound :
    -1 ≤ (99999 / 3276700000 : ℚ) ∧ (99999 / 3276700000 : ℚ) ≤ 1 ∧
    1 / 32768 < |decode_i16 (encode_i16 (99999 / 3276700000)) -
      99999 / 3276700000| := by
  refine ⟨by norm_num, by norm_num, ?_⟩
  have henc : encode_i16 (99999 / 3276700000) = 0 := by
    unfold encode_i16 clampQ truncQ
    have h1 : min (99999 / 3276700000 : ℚ) 1 = 99999 / 3276700000 :=
      min_eq_left (by norm_num)
    have h2 : max (-1 : ℚ) (99999 / 3276700000) = 99999 / 3276700000 :=
      max_eq_right (by norm_num)
    rw [h1, h2, if_pos (by norm_num : (0 : ℚ) ≤ 99999 / 3276700000 * 32767)]
    have h3 : (99999 / 3276700000 : ℚ) * 32767 = 99999 / 100000 := by norm_num
    rw [h3]
    exact Int.floor_eq_iff.mpr ⟨by norm_num, by norm_num⟩
  rw [henc]
  unfold decode_i16
  rw [abs_of_nonpos (by norm_num)]
  norm_num

/-- C3, amended: encoding (clamp then truncate toward zero) followed by
decoding (divide by 32767) reproduces any sample of [-1, 1] to within one
truncation step of the 32767 scale: the error is strictly below 1/32767
(but, per the counterexample, can exceed 1/32768). -/
theorem encode_decode_roundtrip_error_bound (x : ℚ) (h1 : -1 ≤ x) (h2 : x ≤ 1) :
    |decode_i16 (encode_i16 x) - x| < 1 / 32767 := by
  have hclamp : clampQ x (-1) 1 = x := by
    unfold clampQ
    rw [min_eq_left h2, max_eq_right h1]
  unfold encode_i16 decode_i16
  rw [hclamp]
  unfold truncQ
  by_cases hq : 0 ≤ x * 32767
  · rw [if_pos hq]
    have hle : (⌊x * 32767⌋ : ℚ) ≤ x * 32767 := Int.floor_le _
    have hgt : x * 32767 - 1 < (⌊x * 32767⌋ : ℚ) := Int.sub_one_lt_floor _
    rw [abs_lt]
    constructor <;> linarith
  · rw [if_neg hq]
    have hle : x * 32767 ≤ (⌈x * 32767⌉ : ℚ) := Int.le_ceil _
    have hlt : (⌈x * 32767⌉ : ℚ) < x * 32767 + 1 := Int.ceil_lt_add_one _
    rw [abs_lt]
    constructor <;> linarith

/-- Witness for C3's amended bound at x = 1/2. -/
theorem encode_decode_roundtrip_error_bound_witness :
    |decode_i16 (encode_i16 (1 / 2)) - 1 / 2| < 1 / 32767 :=
  encode_decode_roundtrip_error_bound (1 / 2) (by norm_num) (by norm_num)

/-- Length bookkeeping for the chunk loop: when every step emits exactly O
output frames and 0 < I, the loop (run with enough fuel) emits
(n / I) · O output frames and leaves a tail of n % I samples. -/
theorem resampleLoopFuel_lengths {σ : Type} (step : σ → List ℚ → σ × List ℚ) (I O : ℕ)
    (hstep : ∀ s chunk, ((step s chunk).2).length = O) (hI : 0 < I) :
    ∀ (fuel : ℕ) (samples : List ℚ) (st : σ), samples.length ≤ fuel →
      ((resampleLoopFuel step I fuel st samples).2.1).length = samples.length / I * O ∧
      ((resampleLoopFuel step I fuel st samples).2.2).length = samples.length % I := by
  intro fuel
  induction fuel with
  | zero =>
      intro samples st hle
      have h0 : samples.length = 0 := Nat.le_zero.mp hle
      simp [resampleLoopFuel, h0]
  | succ n ih =>
      intro samples st hle
      by_cases h : 0 < I ∧ I ≤ samples.length
      · have hdrop : (samples.drop I).length = samples.length - I := by
          simp
        have hrec := ih (samples.drop I) ((step st (samples.take I)).1)
          (by rw [hdrop]; omega)
        rw [hdrop] at hrec
        simp only [resampleLoopFuel, if_pos h]
        have hquot : samples.length / I = (samples.length - I) / I + 1 :=
          Nat.div_eq_sub_div h.1 h.2
        have hmod : samples.length % I = (samples.length - I) % I :=
          Nat.mod_eq_sub_mod h.2
        constructor
        · rw [List.length_append, hstep, hrec.1, hquot]
          ring
        · rw [hrec.2, hmod]
      · simp only [resampleLoopFuel, if_neg h]
        have hlt : samples.length < I := by omega
        simp [Nat.div_eq_of_lt hlt, Nat.mod_eq_of_lt hlt]

/-- The output length of resample_audio for distinct rates: the full
chunks contribute (n / I) · O frames, and the zero-padded tail chunk
contributes min((n % I) · T / S, O) frames (with floor division), or
nothing when I divides n. -/
theorem resample_audio_length {σ : Type} (step : σ → List ℚ → σ × List ℚ)
    (I O S T : ℕ) (st : σ) (samples : List ℚ)
    (hstep : ∀ s chunk, ((step s chunk).2).length = O)
    (hI : 0 < I) (hST : S ≠ T) :
    (resample_audio step I st samples S T).length =
      samples.length / I * O +
        (if samples.length % I = 0 then 0
         else min (samples.length % I * T / S) O) := by
  have hloop := resampleLoopFuel_lengths step I O hstep hI samples.length samples st le_rfl
  unfold resample_audio resampleLoop
  rw [if_neg hST]
  by_cases hr : samples.length % I = 0
  · rw [if_pos (by rw [hloop.2]; exact hr)]
    rw [hloop.1, if_pos hr, Nat.add_zero]
  · rw [if_neg (by rw [hloop.2]; exact hr)]
    rw [List.length_append, hloop.1, List.length_take, hstep, hloop.2, if_neg hr]
    congr 1
    rw [min_assoc, min_self]

/-- C2 counterexample: with chunk size I = 3, a step producing one output
frame per chunk, source 48000 Hz and target 16000 Hz, the two-sample
input [1, 2] is entirely a final partial frame (remaining = 2); the code
emits floor(2·16000/48000) = 0 samples for it, while the claimed
round(2·16000/48000) = 1 (capped at the frame's produced length 1) would
be 1 sample. -/
theorem resample_output_frames_truncates_not_rounds :
    (resample_audio (fun (_ : Unit) (_ : List ℚ) => ((), [(0 : ℚ)])) 3 ()
        [1, 2] 48000 16000).length = 0 ∧
    min (output_frames_spec 2 16000 48000) 1 = 1 := by
  constructor
  · rfl
  · rfl

/-- C2, amended: when resampling with distinct rates, an input of length
k·I + r with 0 < r < I is zero-padded to the frame size I before its last
processing call, and the output contributed by that final frame is
exactly `output_frames = floor(remaining_input_samples * target_rate /
source_rate)` samples — truncation, not rounding — capped at the frame's
produced output length O; the total output length is
k·O + min(floor(r·T/S), O). -/
theorem resample_tail_frame_length {σ : Type} (step : σ → List ℚ → σ × List ℚ)
    (I O S T : ℕ) (st : σ) (samples : List ℚ) (k r : ℕ)
    (hstep : ∀ s chunk, ((step s chunk).2).length = O)
    (hlen : samples.length = k * I + r) (hr0 : 0 < r) (hrI : r < I) (hST : S ≠ T) :
    (resample_audio step I st samples S T).length = k * O + min (r * T / S) O := by
  have hI : 0 < I := lt_of_le_of_lt (Nat.zero_le r) hrI
  have hdiv : samples.length / I = k := by
    rw [hlen, Nat.add_comm, Nat.add_mul_div_right r k hI, Nat.div_eq_of_lt hrI,
      Nat.zero_add]
  have hmod : samples.length % I = r := by
    rw [hlen, Nat.add_comm, Nat.add_mul_mod_self_right, Nat.mod_eq_of_lt hrI]
  rw [resample_audio_length step I O S T st samples hstep hI hST, hdiv, hmod,
    if_neg (Nat.pos_iff_ne_zero.mp hr0)]

/-- Witness for C2's amended statement: I = 3, O = 1, samples [1, 2]
(k = 0, r = 2), 48000 Hz to 16000 Hz. -/
theorem resample_tail_frame_length_witness :
    (resample_audio (fun (_ : Unit) (_ : List ℚ) => ((), [(0 : ℚ)])) 3 ()
        [1, 2] 48000 16000).length = 0 * 1 + min (2 * 16000 / 48000) 1 :=
  resample_tail_frame_length (fun (_ : Unit) (_ : List ℚ) => ((), [(0 : ℚ)]))
    3 1 48000 16000 () [1, 2] 0 2 (fun _ _ => rfl) rfl (by norm_num) (by norm_num)
    (by norm_num)

/-- C7: under the FftFixedInOut contract (fixed input size I, fixed output
size O per chunk, with S·O = I·T), the length of resample(samples, S, T)
differs from samples.length · T / S by at most one chunk's worth (O) of
output samples; the equal-rate pass-through differs by 0. -/
theorem resample_length_within_one_chunk {σ : Type} (step : σ → List ℚ → σ × List ℚ)
    (I O S T : ℕ) (st : σ) (samples : List ℚ)
    (hstep : ∀ s chunk, ((step s chunk).2).length = O)
    (hI : 0 < I) (hS : 0 < S) (hT : 0 < T) (hratio : S * O = I * T) :
    |((resample_audio step I st samples S T).length : ℚ) -
      (samples.length : ℚ) * T / S| ≤ O := by
  have hSQ : (0 : ℚ) < S := by exact_mod_cast hS
  have hratioQ : (S : ℚ) * O = I * T := by exact_mod_cast hratio
  by_cases hST : S = T
  · subst hST
    unfold resample_audio
    rw [if_pos rfl]
    have hOI : O = I := by
      have hso : S * O = S * I := by rw [hratio, Nat.mul_comm]
      exact Nat.eq_of_mul_eq_mul_left hS hso
    have hcalc : (samples.length : ℚ) * S / S = samples.length := by
      field_simp
    rw [hcalc, sub_self, abs_zero, hOI]
    exact_mod_cast Nat.zero_le I
  · rw [resample_audio_length step I O S T st samples hstep hI hST]
    set n := samples.length with hn
    set k := n / I
    set r := n % I
    have hsplit : n = k * I + r := by
      rw [Nat.mul_comm]
      exact (Nat.div_add_mod n I).symm
    have hfull : ((k * O : ℕ) : ℚ) = (k * I : ℚ) * T / S := by
      push_cast
      rw [eq_div_iff (ne_of_gt hSQ)]
      calc (k : ℚ) * O * S = k * (S * O) := by ring
        _ = k * (I * T) := by rw [hratioQ]
        _ = k * I * T := by ring
    have hnQ : (n : ℚ) = k * I + r := by
      exact_mod_cast hsplit
    by_cases hr : r = 0
    · rw [if_pos hr, Nat.add_zero]
      rw [hfull, hnQ, hr]
      push_cast
      rw [add_zero, sub_self, abs_zero]
      exact_mod_cast Nat.zero_le O
    · rw [if_neg hr]
      have hrI : r < I := Nat.mod_lt n hI
      have hlt : r * T < S * O := by
        rw [hratio]
        exact Nat.mul_lt_mul_of_lt_of_le hrI (Nat.le_refl T) hT
      have hdO : r * T / S ≤ O := by
        have h1 : r * T / S ≤ S * O / S := Nat.div_le_div_right (Nat.le_of_lt hlt)
        rwa [Nat.mul_div_cancel_left O hS] at h1
      rw [min_eq_left hdO]
      set d := r * T / S with hd
      have hd1 : (d : ℚ) * S ≤ r * T := by
        have := Nat.div_mul_le_self (r * T) S
        exact_mod_cast this
      have hd2 : (r : ℚ) * T < S * O := by exact_mod_cast hlt
      have h3 : (d : ℚ) ≤ r * T / S := by
        rw [le_div_iff₀ hSQ]
        exact hd1
      have h4 : (r : ℚ) * T / S < O := by
        rw [div_lt_iff₀ hSQ]
        calc (r : ℚ) * T < S * O := hd2
          _ = O * S := by ring
      have h5 : (0 : ℚ) ≤ d := by positivity
      have hsum : ((k * O + d : ℕ) : ℚ) - (n : ℚ) * T / S = d - r * T / S := by
        push_cast
        rw [hnQ]
        have : ((k : ℚ) * I + r) * T / S = (k * I : ℚ) * T / S + r * T / S := by
          ring
        rw [this, ← hfull]
        push_cast
        ring
      rw [hsum, abs_le]
      constructor
      · linarith
      · linarith

/-- Witness for C7: I = 3, O = 1, S = 48000, T = 16000, four samples. -/
theorem resample_length_within_one_chunk_witness :
    |((resample_audio (fun (_ : Unit) (_ : List ℚ) => ((), [(0 : ℚ)])) 3 ()
        [1, 2, 3, 4] 48000 16000).length : ℚ) -
      (([1, 2, 3, 4] : List ℚ).length : ℚ) * 16000 / 48000| ≤ (1 : ℕ) :=
  resample_length_within_one_chunk (fun (_ : Unit) (_ : List ℚ) => ((), [(0 : ℚ)]))
    3 1 48000 16000 () [1, 2, 3, 4] (fun _ _ => rfl) (by norm_num) (by norm_num)
    (by norm_num) (by norm_num)

/-- Removing a path removes every entry for it. -/
theorem fs_exists_fs_remove (fs : FileSystem) (path : String) :
    fs_exists (fs_remove fs path) path = false := by
  induction fs with
  | nil => rfl
  | cons e fs ih =>
      unfold fs_remove fs_exists at ih ⊢
      cases he : (e.1 == path) with
      | true => simp [List.filter, he, ih]
      | false => simp [List.filter, he, ih]

/-- C4 counterexample: a release cycle in which stop_recording writes the
WAV file but then fails its size check (one input sample resamples to
zero output frames, so the file is exactly the 44-byte header): the task
returns early and the artifact file survives the cycle. -/
theorem stop_failure_leaves_artifact :
    fs_exists (on_hotkey_released (fun (_ : Unit) (_ : List ℚ) => ((), [(0 : ℚ)]))
        3 () ⟨true, [1], 48000, "/tmp/saytype_ptt.wav"⟩ []
        (fun _ => TranscribeOutcome.ok "hi")) "/tmp/saytype_ptt.wav" = true := by
  rfl

/-- C4, amended: on every hotkey-release cycle in which the capture-stop
call succeeds (returns the artifact path), the artifact is deleted before
the cycle ends, whether transcription succeeds or fails; but on the path
where capture-stop fails after writing the file (the empty/too-small WAV
check), the cycle ends with the artifact still on disk. -/
theorem released_cycle_deletes_artifact {σ : Type} (step : σ → List ℚ → σ × List ℚ)
    (I : ℕ) (rst : σ) (rec : RecorderState) (fs : FileSystem)
    (t : String → TranscribeOutcome) (path : String)
    (h : (recorder_stop step I rst rec fs).1 = Except.ok path) :
    fs_exists (on_hotkey_released step I rst rec fs t) path = false := by
  unfold on_hotkey_released
  dsimp only
  split
  · rename_i a heq
    rw [heq] at h
    exact absurd h (by simp)
  · rename_i p heq
    rw [heq] at h
    injection h with hp
    subst hp
    split
    · exact fs_exists_fs_remove _ _
    · exact fs_exists_fs_remove _ _

/-- Witness for C4's amended statement: a successful stop at the target
rate followed by a failing transcription still deletes the artifact. -/
theorem released_cycle_deletes_artifact_witness :
    fs_exists (on_hotkey_released (fun (_ : Unit) (_ : List ℚ) => ((), [(0 : ℚ)]))
        3 () ⟨true, [1], 16000, "/tmp/saytype_b.wav"⟩ []
        (fun _ => TranscribeOutcome.err "boom")) "/tmp/saytype_b.wav" = false :=
  released_cycle_deletes_artifact (fun (_ : Unit) (_ : List ℚ) => ((), [(0 : ℚ)]))
    3 () ⟨true, [1], 16000, "/tmp/saytype_b.wav"⟩ []
    (fun _ => TranscribeOutcome.err "boom") "/tmp/saytype_b.wav" rfl

/-- Unfolding of one handle_event step: the new active flag always equals
the freshly computed subset condition, the pressed notification fires
exactly when the condition holds and the stored flag was clear, and the
released notification exactly in the opposite edge. -/
theorem handle_event_eq (required : List ℤ) (s : HotkeyState) (ev : KeyEvent) :
    handle_event required s ev =
      (⟨applyKeyEvent ev s.held, allRequiredHeld required (applyKeyEvent ev s.held)⟩,
       allRequiredHeld required (applyKeyEvent ev s.held) && !s.hotkey_active,
       !(allRequiredHeld required (applyKeyEvent ev s.held)) && s.hotkey_active) := by
  unfold handle_event
  cases hA : allRequiredHeld required (applyKeyEvent ev s.held) <;>
    cases hB : s.hotkey_active <;>
      simp [hA, hB]

/-- C1: along any event sequence, provided the stored active flag agrees
with the subset condition initially (as it does at startup and after
every reconfiguration), the pressed notifications are exactly the rising
edges of the condition "required ⊆ held" computed over the held-set
trace, and the released notifications are exactly its falling edges: one
pressed per maximal interval where the condition holds, one released when
it ceases, and no re-firing while it stays true. -/
theorem hotkey_pressed_released_edges (required : List ℤ) (s : HotkeyState)
    (evs : List KeyEvent)
    (h : s.hotkey_active = allRequiredHeld required s.held) :
    (hotkeyRun required s evs).2.1 =
      risingEdges (allRequiredHeld required s.held)
        ((heldTrace s.held evs).map (allRequiredHeld required)) ∧
    (hotkeyRun required s evs).2.2 =
      fallingEdges (allRequiredHeld required s.held)
        ((heldTrace s.held evs).map (allRequiredHeld required)) := by
  induction evs generalizing s with
  | nil => exact ⟨rfl, rfl⟩
  | cons ev evs ih =>
      have hIH := ih ⟨applyKeyEvent ev s.held,
        allRequiredHeld required (applyKeyEvent ev s.held)⟩ rfl
      simp only [hotkeyRun, handle_event_eq, heldTrace, List.map_cons,
        risingEdges, fallingEdges]
      refine ⟨?_, ?_⟩
      · rw [h, hIH.1]
      · rw [h, hIH.2]

/-- Witness for C1: the combo is the single keycode 54 (right command);
pressing it fires one pressed edge, releasing it fires one released edge. -/
theorem hotkey_pressed_released_edges_witness :
    (hotkeyRun [54] ⟨∅, false⟩
        [⟨CGEventType.flagsChanged, 54, ⟨true, false, false, false, false, false⟩⟩,
         ⟨CGEventType.flagsChanged, 54, ⟨false, false, false, false, false, false⟩⟩]).2.1 =
      risingEdges (allRequiredHeld [54] (∅ : Finset ℤ))
        ((heldTrace (∅ : Finset ℤ)
          [⟨CGEventType.flagsChanged, 54, ⟨true, false, false, false, false, false⟩⟩,
           ⟨CGEventType.flagsChanged, 54, ⟨false, false, false, false, false, false⟩⟩]).map
          (allRequiredHeld [54])) ∧
    (hotkeyRun [54] ⟨∅, false⟩
        [⟨CGEventType.flagsChanged, 54, ⟨true, false, false, false, false, false⟩⟩,
         ⟨CGEventType.flagsChanged, 54, ⟨false, false, false, false, false, false⟩⟩]).2.2 =
      fallingEdges (allRequiredHeld [54] (∅ : Finset ℤ))
        ((heldTrace (∅ : Finset ℤ)
          [⟨CGEventType.flagsChanged, 54, ⟨true, false, false, false, false, false⟩⟩,
           ⟨CGEventType.flagsChanged, 54, ⟨false, false, false, false, false, false⟩⟩]).map
          (allRequiredHeld [54])) :=
  hotkey_pressed_released_edges [54] ⟨∅, false⟩
    [⟨CGEventType.flagsChanged, 54, ⟨true, false, false, false, false, false⟩⟩,
     ⟨CGEventType.flagsChanged, 54, ⟨false, false, false, false, false, false⟩⟩]
    (by decide)

end Saytype
